import Mathlib

/-!
Verification of the factor-computation library and strategy code of the
quantNotebooks repository.  Panels are modelled as lists of rows (one row
per trading date, oldest first), each row a cross-section of rational
values, one per instrument; per-instrument time series (columns) are
lists of rationals, oldest first.  NaN is modelled by `Option` where a
claim depends on missing data.  Machine floats are modelled by `ℚ`;
division by zero yields the junk value `0` of rational division.
-/

/-! ## Panel access layer (window extraction) -/

/-- The last `n` elements of a list (Python `l[-n:]`). -/
def lastN (n : Nat) (l : List α) : List α := l.drop (l.length - n)

/-- Modelled from the spec: the Panel Data Access Layer `get_window`
(spec section 4.1) — the trailing slice of the panel of length `len`
ending at evaluation date `D` (rows ordered oldest to newest, newest row
= date `D`).  The windowing itself is performed by the external
quantopian pipeline framework and is not part of the repository source;
it is modelled here from the spec's words. -/
def windowAt (panel : List (List ℚ)) (D len : Nat) : List (List ℚ) :=
  lastN len (panel.take (D + 1))

/-- Running a factor (any function from a window to a cross-sectional
output vector) at date `D`: the factor sees exactly the trailing window
of its declared length. -/
def runFactor (f : List (List ℚ) → List ℚ) (len : Nat)
    (panel : List (List ℚ)) (D : Nat) : List ℚ :=
  f (windowAt panel D len)

/-- Apply a per-column function to every instrument column of a
row-major window (the `for col in close.T` loops of the factor
library). -/
def perColumn (f : List ℚ → ℚ) (w : List (List ℚ)) : List ℚ :=
  w.transpose.map f

/-- Pioneer_0101 `Momentum.compute`: `close[-20] / close[0]` per column
(window_length 252). -/
def pioneerMomentumCol (c : List ℚ) : ℚ :=
  c.getD (c.length - 20) 0 / c.getD 0 0

/-- Z99-AlphasLibIndex `Price_Momentum_12M.compute`:
`(close[-1] - close[0]) / close[0]` per column (window_length 252). -/
def priceMomentum12MCol (c : List ℚ) : ℚ :=
  (c.getLastD 0 - c.getD 0 0) / c.getD 0 0

theorem take_append_of_le_len {α : Type} (l₁ l₂ : List α) (n : Nat)
    (h : n ≤ l₁.length) : (l₁ ++ l₂).take n = l₁.take n := by
  induction l₁ generalizing n with
  | nil => have hn : n = 0 := by simpa using h
           subst hn; simp
  | cons a t ih =>
    cases n with
    | zero => simp
    | succ m => simp only [List.cons_append, List.take_succ_cons]
                rw [ih]
                simpa using h

/-- C1: for every factor (any function of the window) and every
evaluation date `D` inside the panel, the output at `D` is computed
from the trailing window of the declared length only, so appending
panel rows for dates after `D` leaves the value computed at date `D`
unchanged (no look-ahead). -/
theorem factor_no_lookahead (f : List (List ℚ) → List ℚ) (len : Nat)
    (panel future : List (List ℚ)) (D : Nat) (hD : D < panel.length) :
    runFactor f len (panel ++ future) D = runFactor f len panel D := by
  unfold runFactor windowAt
  rw [take_append_of_le_len _ _ _ (by omega)]

/-- C1 witness: the 12-month price-momentum factor evaluated at date 2
of a 3-row panel is unchanged when a future row is appended. -/
theorem factor_no_lookahead_witness :
    runFactor (perColumn priceMomentum12MCol) 3
        ([[1, 2], [2, 3], [4, 6]] ++ [[8, 9]]) 2 =
      runFactor (perColumn priceMomentum12MCol) 3 [[1, 2], [2, 3], [4, 6]] 2 :=
  factor_no_lookahead (perColumn priceMomentum12MCol) 3
    [[1, 2], [2, 3], [4, 6]] [[8, 9]] 2 (by decide)

/-! ## MVF strategy rebalance (08282017-MVF-12M_Momentum_EVtoStoSG.py) -/

/-- `initialize`: `context.long_leverage = 0.50`. -/
def long_leverage : ℚ := 1 / 2

/-- `initialize`: `context.short_leverage = -0.50`. -/
def short_leverage : ℚ := -(1 / 2)

/-- `rebalance`, first loop: `long_weight = long_leverage /
len(long_list)`; for each tradable long stock,
`order_target_percent(long_stock, long_weight)`. -/
def longOrders (longList : List Int) (tradable : Int → Bool) (ll : ℚ) :
    List (Int × ℚ) :=
  (longList.filter tradable).map fun s => (s, ll / (longList.length : ℚ))

/-- `rebalance`, second loop: `short_weight = short_leverage /
len(short_list)`; for each tradable short stock,
`order_target_percent(short_stock, -short_weight)`. -/
def shortOrders (shortList : List Int) (tradable : Int → Bool) (sl : ℚ) :
    List (Int × ℚ) :=
  (shortList.filter tradable).map fun s => (s, -(sl / (shortList.length : ℚ)))

/-- `rebalance`, third loop: positions in neither list are closed
(`order_target(stock, 0)`). -/
def closeOrders (positions longList shortList : List Int) : List (Int × ℚ) :=
  (positions.filter fun s => ¬ s ∈ longList ∧ ¬ s ∈ shortList).map
    fun s => (s, (0 : ℚ))

/-- C8: every order of the long loop carries target weight
`long_leverage / len(long_list)`; in particular with the configured
`long_leverage = 0.5` and 50 long instruments, every long order has
target weight `0.5 / 50 = 0.01`. -/
theorem long_equal_weight :
    (∀ (ll : ℚ) (longList : List Int) (tradable : Int → Bool) (p : Int × ℚ),
        p ∈ longOrders longList tradable ll →
          p.2 = ll / (longList.length : ℚ)) ∧
    (∀ (longList : List Int) (tradable : Int → Bool) (p : Int × ℚ),
        longList.length = 50 → p ∈ longOrders longList tradable long_leverage →
          p.2 = 1 / 100) := by
  constructor
  · intro ll longList tradable p hp
    rcases List.mem_map.mp hp with ⟨s, _, rfl⟩
    rfl
  · intro longList tradable p h50 hp
    rcases List.mem_map.mp hp with ⟨s, _, rfl⟩
    simp [h50, long_leverage]
    norm_num

/-- C8 witness: a long basket of 50 instruments with leverage 0.5
yields an order of weight 1/100. -/
theorem long_equal_weight_witness :
    ((3 : Int), (1 / 100 : ℚ)).2 = 1 / 100 := by
  apply long_equal_weight.2 (List.replicate 50 3) (fun _ => true) _ (by simp)
  refine List.mem_map.mpr ⟨3, ?_, ?_⟩
  · simp
  · simp [long_leverage]
    norm_num

/-- C9: with the configured `short_leverage = -0.5` and 50 short
instruments, the double negation `order_target_percent(short_stock,
-short_weight)` sends a POSITIVE target weight `+0.01` for every
instrument of the short list — the same sign and magnitude as the long
basket's weight. -/
theorem short_orders_positive_weight :
    (∀ (sl : ℚ) (shortList : List Int) (tradable : Int → Bool) (p : Int × ℚ),
        p ∈ shortOrders shortList tradable sl →
          p.2 = -(sl / (shortList.length : ℚ))) ∧
    (∀ (shortList : List Int) (tradable : Int → Bool) (p : Int × ℚ),
        shortList.length = 50 →
          p ∈ shortOrders shortList tradable short_leverage →
          p.2 = 1 / 100 ∧ 0 < p.2) := by
  constructor
  · intro sl shortList tradable p hp
    rcases List.mem_map.mp hp with ⟨s, _, rfl⟩
    rfl
  · intro shortList tradable p h50 hp
    rcases List.mem_map.mp hp with ⟨s, _, rfl⟩
    simp [h50, short_leverage]
    norm_num

/-- C9 witness: a short basket of 50 instruments with leverage -0.5
yields an order of weight +1/100 (positive). -/
theorem short_orders_positive_weight_witness :
    ((7 : Int), (1 / 100 : ℚ)).2 = 1 / 100 ∧
      (0 : ℚ) < ((7 : Int), (1 / 100 : ℚ)).2 := by
  apply short_orders_positive_weight.2 (List.replicate 50 7) (fun _ => true) _
    (by simp)
  refine List.mem_map.mpr ⟨7, ?_, ?_⟩
  · simp
  · simp [short_leverage]
    norm_num

/-! ## Annualization in point-in-time ratio factors (Z99-AlphasLibIndex) -/

/-- `Capex_To_Sales.compute`: `(capex[-1] * 4) / (sales[-1] * 4)` per
instrument. -/
def capexToSales (capex sales : ℚ) : ℚ := (capex * 4) / (sales * 4)

/-- `Dividend_Payout_Ratio.compute`: `(dps[-1] * 4) / (eps[-1] * 4)`
per instrument. -/
def dividendPayout (dps eps : ℚ) : ℚ := (dps * 4) / (eps * 4)

/-- `Interest_Coverage.compute`: `(ebit[-1] * 4) /
(interest_expense[-1] * 4)` per instrument. -/
def interestCoverage (ebit ie : ℚ) : ℚ := (ebit * 4) / (ie * 4)

theorem mul4_div_mul4 (a b : ℚ) : (a * 4) / (b * 4) = a / b := by
  rcases eq_or_ne b 0 with rfl | hb
  · simp
  · rw [mul_comm a 4, mul_comm b 4, mul_div_mul_left a b (by norm_num)]

/-- C10: in Capex_To_Sales, Dividend_Payout_Ratio and
Interest_Coverage the quarterly-to-annual multiplier 4 is applied to
both numerator and denominator, so it cancels and each factor returns
exactly the plain ratio of its two fields. -/
theorem annualization_cancels (a b c d e f : ℚ) :
    capexToSales a b = a / b ∧ dividendPayout c d = c / d ∧
      interestCoverage e f = e / f :=
  ⟨mul4_div_mul4 a b, mul4_div_mul4 c d, mul4_div_mul4 e f⟩

/-- C10 witness: concrete instances of the three ratios with the
multiplier cancelled. -/
theorem annualization_cancels_witness :
    capexToSales 3 6 = 3 / 6 ∧ dividendPayout 1 4 = 1 / 4 ∧
      interestCoverage 10 5 = 10 / 5 :=
  annualization_cancels 3 6 1 4 10 5

/-! ## NaN-aware rolling statistics (np.nanmean / np.nanstd)

A window column is a `List (Option ℚ)`, `none` standing for NaN. -/

/-- The non-NaN entries of a column. -/
def nonNaN (xs : List (Option ℚ)) : List ℚ := xs.filterMap id

/-- `np.nanmean` of a column: mean of the non-NaN entries; NaN when
there are none. -/
def nanmean (xs : List (Option ℚ)) : Option ℚ :=
  if (nonNaN xs).length = 0 then none
  else some ((nonNaN xs).sum / ((nonNaN xs).length : ℚ))

/-- `np.nanvar` (population, ddof = 0, numpy's default inside
`np.nanstd`): mean squared deviation of the non-NaN entries; NaN when
there are none. -/
def nanvar (xs : List (Option ℚ)) : Option ℚ :=
  if (nonNaN xs).length = 0 then none
  else some
    (((nonNaN xs).map fun v =>
        (v - (nonNaN xs).sum / ((nonNaN xs).length : ℚ)) ^ 2).sum /
      ((nonNaN xs).length : ℚ))

/-- Exact rational square root: the true root when the argument is the
square of a rational, and the junk value 0 otherwise.  The code
computes a floating-point square root; results are only ever compared
at inputs whose exact root is rational. -/
def sqrtQ (q : ℚ) : ℚ :=
  if 0 ≤ q.num ∧ Nat.sqrt q.num.toNat * Nat.sqrt q.num.toNat = q.num.toNat ∧
      Nat.sqrt q.den * Nat.sqrt q.den = q.den then
    (Nat.sqrt q.num.toNat : ℚ) / (Nat.sqrt q.den : ℚ)
  else 0

theorem sqrtQ_sq (r : ℚ) (h : 0 ≤ r) : sqrtQ (r * r) = r := by
  have hn0 : 0 ≤ r.num := Rat.num_nonneg.mpr h
  rcases Int.eq_ofNat_of_zero_le hn0 with ⟨m, hm⟩
  have hnum : (r * r).num = r.num * r.num := Rat.mul_self_num r
  have hden : (r * r).den = r.den * r.den := Rat.mul_self_den r
  have htn : (r * r).num.toNat = m * m := by
    rw [hnum, hm]
    exact_mod_cast Int.toNat_natCast (m * m)
  have hsn : Nat.sqrt (r * r).num.toNat = m := by rw [htn, Nat.sqrt_eq]
  have hsd : Nat.sqrt (r * r).den = r.den := by rw [hden, Nat.sqrt_eq]
  rw [sqrtQ, if_pos]
  · rw [hsn, hsd]
    rw [show ((m : ℚ)) = (r.num : ℚ) by rw [hm]; push_cast; ring]
    exact Rat.num_div_den r
  · refine ⟨?_, ?_, ?_⟩
    · rw [hnum]; positivity
    · rw [hsn, htn]
    · rw [hsd, hden]

theorem sqrtQ_zero : sqrtQ 0 = 0 := by
  have h := sqrtQ_sq 0 le_rfl
  simpa using h

/-- `np.nanstd`: square root of the nan-aware population variance. -/
def nanstd (xs : List (Option ℚ)) : Option ℚ := (nanvar xs).map sqrtQ

/-- `Price_Oscillator.compute` per column (AlphasLibIndex and Z99):
`np.nanmean(close[-20:]) / np.nanmean(close) - 1`. -/
def priceOscCol (c : List (Option ℚ)) : Option ℚ := do
  let a ← nanmean (lastN 20 c)
  let b ← nanmean c
  pure (a / b - 1)

/-- Z99 `Downside_Risk.compute`: monthly closes `close[0::21]`. -/
def monthlyCloses (c : List (Option ℚ)) : List (Option ℚ) :=
  (List.range ((c.length + 20) / 21)).map fun k => c.getD (21 * k) none

/-- Consecutive-element returns `((x - np.roll(x, 1)) / np.roll(x, 1))[1:]`
on an Option-valued series (NaN propagates through the arithmetic). -/
def consecReturns (l : List (Option ℚ)) : List (Option ℚ) :=
  (List.range (l.length - 1)).map fun k =>
    match l.getD k none, l.getD (k + 1) none with
    | some a, some b => some ((b - a) / a)
    | _, _ => none

/-- Z99 `Downside_Risk.compute` per column: `np.nanstd` of the
negative monthly returns (the boolean mask `col_ret < 0` is false for
NaN, so NaN entries are dropped before the std). -/
def downsideRiskCol (c : List (Option ℚ)) : Option ℚ :=
  nanstd ((((consecReturns (monthlyCloses c)).filterMap id).filter
    fun r => decide (r < 0)).map some)

/-- C2 counterexample: on the window column `[NaN, 5]`, which has
exactly one non-NaN entry, the nan-aware mean returns that entry as the
claim states, but the nan-aware std returns 0 (numpy's population std
of a single sample), not NaN as the claim states. -/
theorem nanstd_single_sample_cex :
    nanmean [none, some 5] = some 5 ∧ nanstd [none, some 5] = some 0 ∧
      nanstd [none, some 5] ≠ none := by
  have hm : nanmean [none, some 5] = some 5 := by
    simp [nanmean, nonNaN]
  have hv : nanvar [none, some 5] = some 0 := by
    simp [nanvar, nonNaN]
  have hs : nanstd [none, some 5] = some 0 := by
    rw [nanstd, hv]
    simp [sqrtQ_zero]
  exact ⟨hm, hs, by rw [hs]; exact fun h => Option.noConfusion h⟩

/-- C2 (amended): over a window column with exactly one non-NaN entry
`x`, the nan-aware mean returns `x` and the nan-aware std returns 0 —
one sample has zero deviation from its own mean; `np.nanstd` yields NaN
only when there is no valid sample at all. -/
theorem nan_single_sample_mean_std (xs : List (Option ℚ)) (x : ℚ)
    (h : nonNaN xs = [x]) :
    nanmean xs = some x ∧ nanstd xs = some 0 := by
  have hm : nanmean xs = some x := by simp [nanmean, h]
  have hv : nanvar xs = some 0 := by simp [nanvar, h]
  refine ⟨hm, ?_⟩
  rw [nanstd, hv]
  simp [sqrtQ_zero]

/-- C2 witness: a column with the single non-NaN entry 7. -/
theorem nan_single_sample_mean_std_witness :
    nanmean [none, some 7, none] = some 7 ∧
      nanstd [none, some 7, none] = some 0 :=
  nan_single_sample_mean_std [none, some 7, none] 7 (by simp [nonNaN])

/-! ## Moneyflow_Volume_5d (Z99-AlphasLibIndex / AlphasLibIndex) -/

/-- The denominator `np.dot(col_c, col_v)`. -/
def dotQ (c v : List ℚ) : ℚ := (List.zipWith (fun a b => a * b) c v).sum

/-- The numerator loop of `Moneyflow_Volume_5d.compute`: for each day
`n` of the window, add `price * volume` when `price > col_c[n - 1]` and
subtract it otherwise.  Python's `col_c[n - 1]` at `n = 0` is
`col_c[-1]`, the LAST element of the window, hence the wrap-around
index `(n + length - 1) % length`. -/
def mfvNum (c v : List ℚ) : ℚ :=
  (List.range c.length).foldl
    (fun acc n =>
      if c.getD ((n + c.length - 1) % c.length) 0 < c.getD n 0 then
        acc + c.getD n 0 * v.getD n 0
      else acc - c.getD n 0 * v.getD n 0)
    0

/-- `Moneyflow_Volume_5d.compute` per column: numerator divided by the
dot product of closes and volumes. -/
def mfvCol (c v : List ℚ) : ℚ := mfvNum c v / dotQ c v

/-- Modelled from the spec: the claim's numerator — positive sign when
"that day's close rose versus the prior day's close and negative sign
otherwise".  The window's first day has no prior day inside the window,
so "rose versus the prior day" cannot hold there and the claim's
"otherwise" (negative) sign applies. -/
def mfvClaimNum (c v : List ℚ) : ℚ :=
  (List.range c.length).foldl
    (fun acc n =>
      if 0 < n ∧ c.getD (n - 1) 0 < c.getD n 0 then
        acc + c.getD n 0 * v.getD n 0
      else acc - c.getD n 0 * v.getD n 0)
    0

/-- Modelled from the spec: the claim's money-flow value. -/
def mfvClaim (c v : List ℚ) : ℚ := mfvClaimNum c v / dotQ c v

theorem range_five : List.range 5 = [0, 1, 2, 3, 4] := rfl

/-- C3 counterexample: on the 5-day window with closes
`[2, 1, 1, 1, 1]` and unit volumes, the code gives `-1/3` — day 0 gets
a POSITIVE sign because `col_c[-1]` wraps around to the last close
(2 > 1) — while the claim's prior-day signing gives `-1`. -/
theorem moneyflow_day0_cex :
    mfvCol [2, 1, 1, 1, 1] [1, 1, 1, 1, 1] = -(1 / 3) ∧
      mfvClaim [2, 1, 1, 1, 1] [1, 1, 1, 1, 1] = -1 ∧
      (-(1 / 3) : ℚ) ≠ -1 := by
  refine ⟨?_, ?_, by norm_num⟩
  · norm_num [mfvCol, mfvNum, dotQ, range_five]
  · norm_num [mfvClaim, mfvClaimNum, dotQ, range_five]

theorem list_len_five {α : Type} (l : List α) (h : l.length = 5) :
    ∃ a b c d e, l = [a, b, c, d, e] := by
  rcases l with _ | ⟨a, _ | ⟨b, _ | ⟨c, _ | ⟨d, _ | ⟨e, _ | ⟨f, t⟩⟩⟩⟩⟩⟩ <;>
    simp_all

/-- C3 (amended): over a 5-day window, Moneyflow_Volume_5d returns the
signed sum of `close * volume` divided by the dot product of closes and
volumes, where day `n`'s sign is positive exactly when `close[n]`
exceeds `close[(n + 4) % 5]` — the prior day's close for days 1..4, but
the LAST day's close for day 0 (Python index wrap-around). -/
theorem moneyflow_closed_form (c v : List ℚ) (hc : c.length = 5)
    (hv : v.length = 5) :
    mfvCol c v =
      (∑ n ∈ Finset.range 5,
          (if c.getD ((n + 4) % 5) 0 < c.getD n 0 then (1 : ℚ) else -1) *
            (c.getD n 0 * v.getD n 0)) /
        (∑ n ∈ Finset.range 5, c.getD n 0 * v.getD n 0) := by
  obtain ⟨c0, c1, c2, c3, c4, rfl⟩ := list_len_five c hc
  obtain ⟨v0, v1, v2, v3, v4, rfl⟩ := list_len_five v hv
  rw [mfvCol, mfvNum, dotQ]
  norm_num [range_five, Finset.sum_range_succ]
  split_ifs <;> ring

/-- C3 witness: the closed form evaluated on a concrete rising window. -/
theorem moneyflow_closed_form_witness :
    mfvCol [1, 2, 3, 4, 5] [1, 1, 1, 1, 1] =
      (∑ n ∈ Finset.range 5,
          (if List.getD [1, 2, 3, 4, 5] ((n + 4) % 5) 0 <
              List.getD [1, 2, 3, 4, 5] n 0 then (1 : ℚ) else -1) *
            (List.getD [1, 2, 3, 4, 5] n 0 * List.getD [1, 1, 1, 1, 1] n 0)) /
        (∑ n ∈ Finset.range 5,
          List.getD [1, 2, 3, 4, 5] n 0 * List.getD [1, 1, 1, 1, 1] n 0) :=
  moneyflow_closed_form [1, 2, 3, 4, 5] [1, 1, 1, 1, 1] (by simp) (by simp)

/-! ## Index_Beta (Z99-AlphasLibIndex) -/

/-- Mean of a list (used inside `np.cov`). -/
def sampleMean (l : List ℚ) : ℚ := l.sum / (l.length : ℚ)

/-- One off-diagonal/diagonal entry of `np.cov(x, y)` (sample
covariance, numpy default ddof = 1). -/
def covList (x y : List ℚ) : ℚ :=
  (List.zipWith (fun a b => (a - sampleMean x) * (b - sampleMean y)) x y).sum /
    ((x.length : ℚ) - 1)

/-- Daily returns `((col - np.roll(col, 1)) / np.roll(col, 1))[1:]`:
dropping index 0 discards the wrapped-around entry, leaving the
ordinary day-over-day returns. -/
def retsCol (c : List ℚ) : List ℚ :=
  (List.range (c.length - 1)).map fun k =>
    (c.getD (k + 1) 0 - c.getD k 0) / c.getD k 0

/-- The per-column beta of `Index_Beta.compute`:
`np.cov(col_returns, benchmark_returns)[0, 1] / cov[1, 1]`. -/
def betaCol (c b : List ℚ) : ℚ :=
  covList (retsCol c) (retsCol b) / covList (retsCol b) (retsCol b)

/-- `Index_Beta.compute`: find the benchmark column (the first asset
with sid 8554, `np.where(assets == 8554)[0][0]`), then compute each
column's regression slope against the benchmark's returns.  `none`
models the IndexError raised when no asset has sid 8554. -/
def indexBeta {n : ℕ} (ids : Fin n → ℤ) (cols : Fin n → List ℚ) :
    Option (Fin n → ℚ) :=
  ((List.finRange n).find? fun i => decide (ids i = 8554)).map
    fun j => fun i => betaCol (cols i) (cols j)

/-- C5: Index_Beta returns, per instrument, the slope
`cov(instrument returns, benchmark returns) / var(benchmark returns)`
over the window; in particular, whenever the return series (length 5,
from 6 closes) have computed covariance 0.002 and benchmark variance
0.001, the instrument's value is 2. -/
theorem index_beta_slope {n : ℕ} (ids : Fin n → ℤ) (cols : Fin n → List ℚ)
    (i j : Fin n)
    (hj : ((List.finRange n).find? fun k => decide (ids k = 8554)) = some j)
    (hli : (cols i).length = 6) (hlj : (cols j).length = 6)
    (hcov : covList (retsCol (cols i)) (retsCol (cols j)) = 1 / 500)
    (hvar : covList (retsCol (cols j)) (retsCol (cols j)) = 1 / 1000) :
    (indexBeta ids cols).map (fun g => g i) = some 2 := by
  rw [indexBeta, hj]
  show some (betaCol (cols i) (cols j)) = some 2
  rw [betaCol, hcov, hvar]
  norm_num

/-- C5 witness: a two-asset cross-section whose second asset is the
benchmark (sid 8554); the instrument's returns are twice the
benchmark's returns `[1/50, -1/50, 2/50, -2/50, 0]`, giving covariance
exactly 0.002, benchmark variance exactly 0.001 and beta 2. -/
theorem index_beta_slope_witness :
    (indexBeta (![1, 8554] : Fin 2 → ℤ)
        ![[1, 26/25, 624/625, 16848/15625, 387504/390625, 387504/390625],
          [1, 51/50, 2499/2500, 32487/31250, 389844/390625, 389844/390625]]).map
        (fun g => g 0) = some 2 := by
  apply index_beta_slope _ _ 0 1
  · decide
  · simp
  · simp
  · norm_num [covList, retsCol, sampleMean, range_five]
  · norm_num [covList, retsCol, sampleMean, range_five]

/-! ## MACD_Signal_10d (Z99-AlphasLibIndex / AlphasLibIndex)

The per-column signal-line computation is delegated to the external
talib library; it is modelled as an arbitrary fallible per-column
function (spec section 4.2: the recurrence may fail, e.g. on
insufficient variation), so that the theorem holds whatever talib
does on a given column. -/

/-- The `try: ... except: append(np.nan)` around one column's
`talib.MACD` call. -/
def tryMACD (f : List ℚ → Except Unit ℚ) (c : List ℚ) : Option ℚ :=
  match f c with
  | Except.ok v => some v
  | Except.error _ => none

/-- `MACD_Signal_10d.compute`: the Python loop that builds `sig_lines`
column by column, appending the signal-line value or NaN. -/
def macdBatch (f : List ℚ → Except Unit ℚ) (cols : List (List ℚ)) :
    List (Option ℚ) :=
  cols.foldl (fun acc col => acc ++ [tryMACD f col]) []

theorem macdBatch_acc (f : List ℚ → Except Unit ℚ) (cols : List (List ℚ))
    (acc : List (Option ℚ)) :
    cols.foldl (fun a col => a ++ [tryMACD f col]) acc =
      acc ++ cols.map (tryMACD f) := by
  induction cols generalizing acc with
  | nil => simp
  | cons c t ih => simp [List.foldl_cons, ih]

/-- C7: the batch MACD computation is total (it never raises): it
returns one entry per instrument, instrument `i`'s entry is computed
from instrument `i`'s own column alone, and a column on which the
signal-line recurrence fails contributes NaN without affecting any
other column's output. -/
theorem macd_isolates_failures (f : List ℚ → Except Unit ℚ)
    (cols : List (List ℚ)) :
    macdBatch f cols = cols.map (tryMACD f) ∧
      (macdBatch f cols).length = cols.length ∧
      ∀ i : ℕ, (macdBatch f cols)[i]? = cols[i]?.map (tryMACD f) := by
  have hmap : macdBatch f cols = cols.map (tryMACD f) := by
    rw [macdBatch, macdBatch_acc]
    simp
  refine ⟨hmap, ?_, ?_⟩
  · rw [hmap, List.length_map]
  · intro i
    rw [hmap, List.getElem?_map]

/-! ## Mean_Reversion_1M (Z99-AlphasLibIndex) -/

/-- `ret_1M = (close[-1] - close[-21]) / close[-21]` per column. -/
def ret1MCol (c : List ℚ) : ℚ :=
  (c.getLastD 0 - c.getD (c.length - 21) 0) / c.getD (c.length - 21) 0

/-- `ret_1Y_monthly = ((close[-1] - close[0]) / close[0]) / 12.` — one
number per instrument: the 12-month return divided by 12. -/
def annualizedMonthly (c : List ℚ) : ℚ :=
  ((c.getLastD 0 - c.getD 0 0) / c.getD 0 0) / 12

/-- `np.nanmean(ret_1Y_monthly)`: mean over the INSTRUMENT axis
(`ret_1Y_monthly` is a 1-D array with one entry per instrument; the
claims' windows have no NaNs). -/
def crossMean {n : ℕ} (q : Fin n → ℚ) : ℚ := (∑ j, q j) / (n : ℚ)

/-- Population variance over the instrument axis (inside
`np.nanstd(ret_1Y_monthly)`). -/
def crossVar {n : ℕ} (q : Fin n → ℚ) : ℚ :=
  (∑ j, (q j - crossMean q) ^ 2) / (n : ℚ)

/-- `np.nanstd(ret_1Y_monthly)`: std over the instrument axis. -/
def crossStd {n : ℕ} (q : Fin n → ℚ) : ℚ := sqrtQ (crossVar q)

/-- Z99 `Mean_Reversion_1M.compute`:
`out[:] = (ret_1M - np.nanmean(ret_1Y_monthly)) / np.nanstd(ret_1Y_monthly)`
— the mean and std are taken across instruments, not through time. -/
def meanReversion1M {n : ℕ} (cols : Fin n → List ℚ) : Fin n → ℚ :=
  fun i =>
    (ret1MCol (cols i) - crossMean fun j => annualizedMonthly (cols j)) /
      crossStd fun j => annualizedMonthly (cols j)

/-- Modelled from the spec: the claim's "monthly returns over the
12-month window" of a single instrument — the return of each of the 12
consecutive 21-day months of the 252-day window. -/
def monthlyRetsSpec (c : List ℚ) : List ℚ :=
  (List.range 12).map fun k =>
    (c.getD (21 * k + 20) 0 - c.getD (21 * k) 0) / c.getD (21 * k) 0

/-- Modelled from the spec: the claim's per-instrument z-score — the
1-month return minus the average of the instrument's own monthly
returns, divided by the standard deviation of those monthly returns. -/
def meanReversionSpec (c : List ℚ) : ℚ :=
  (ret1MCol c - (monthlyRetsSpec c).sum / 12) /
    sqrtQ
      (((monthlyRetsSpec c).map fun r =>
          (r - (monthlyRetsSpec c).sum / 12) ^ 2).sum / 12)

/-- A 252-day close column: twelve 21-day months, each starting at
price 1 and ending at 3/2 (even months) or 1/2 (odd months), so its
twelve monthly returns are +1/2, -1/2, ... alternating. -/
def mrColA : List ℚ :=
  (List.range 12).flatMap fun k =>
    List.replicate 20 1 ++ [if k % 2 = 0 then 3 / 2 else 1 / 2]

/-- A 252-day close column: constant 1 except a final jump to 2. -/
def mrColB : List ℚ := List.replicate 251 1 ++ [2]

set_option maxRecDepth 4000 in
theorem mrColA_ret1M : ret1MCol mrColA = -(1 / 2) := by
  have h1 : mrColA.getLastD 0 = 1 / 2 := rfl
  have h2 : mrColA.getD (mrColA.length - 21) 0 = 1 := rfl
  rw [ret1MCol, h1, h2]
  norm_num

set_option maxRecDepth 4000 in
theorem mrColA_annual : annualizedMonthly mrColA = -(1 / 24) := by
  have h1 : mrColA.getLastD 0 = 1 / 2 := rfl
  have h2 : mrColA.getD 0 0 = 1 := rfl
  rw [annualizedMonthly, h1, h2]
  norm_num

set_option maxRecDepth 4000 in
theorem mrColB_annual : annualizedMonthly mrColB = 1 / 12 := by
  have h1 : mrColB.getLastD 0 = 2 := rfl
  have h2 : mrColB.getD 0 0 = 1 := rfl
  rw [annualizedMonthly, h1, h2]
  norm_num

set_option maxRecDepth 4000 in
theorem mrColA_monthly :
    monthlyRetsSpec mrColA =
      [1 / 2, -(1 / 2), 1 / 2, -(1 / 2), 1 / 2, -(1 / 2), 1 / 2, -(1 / 2),
        1 / 2, -(1 / 2), 1 / 2, -(1 / 2)] := by
  have hr : List.range 12 = [0, 1, 2, 3, 4, 5, 6, 7, 8, 9, 10, 11] := rfl
  rw [monthlyRetsSpec, hr]
  norm_num [show mrColA[0]? = some 1 from rfl, show mrColA[20]? = some (3 / 2) from rfl,
    show mrColA[21]? = some 1 from rfl, show mrColA[41]? = some (1 / 2) from rfl,
    show mrColA[42]? = some 1 from rfl, show mrColA[62]? = some (3 / 2) from rfl,
    show mrColA[63]? = some 1 from rfl, show mrColA[83]? = some (1 / 2) from rfl,
    show mrColA[84]? = some 1 from rfl, show mrColA[104]? = some (3 / 2) from rfl,
    show mrColA[105]? = some 1 from rfl, show mrColA[125]? = some (1 / 2) from rfl,
    show mrColA[126]? = some 1 from rfl, show mrColA[146]? = some (3 / 2) from rfl,
    show mrColA[147]? = some 1 from rfl, show mrColA[167]? = some (1 / 2) from rfl,
    show mrColA[168]? = some 1 from rfl, show mrColA[188]? = some (3 / 2) from rfl,
    show mrColA[189]? = some 1 from rfl, show mrColA[209]? = some (1 / 2) from rfl,
    show mrColA[210]? = some 1 from rfl, show mrColA[230]? = some (3 / 2) from rfl,
    show mrColA[231]? = some 1 from rfl, show mrColA[251]? = some (1 / 2) from rfl]

theorem filterMap_id_map_some (l : List ℚ) : (l.map some).filterMap id = l := by
  induction l with
  | nil => rfl
  | cons a t ih => simp [ih]

/-- C4 (amended): Z99's Mean_Reversion_1M returns, per instrument, the
1-month return minus the nan-aware mean of the cross-sectional vector
of all instruments' (12-month return)/12 values, divided by the
nan-aware standard deviation of that same cross-sectional vector: the
`np.nanmean`/`np.nanstd` aggregation runs over the instrument axis,
not over the instrument's own monthly returns. -/
theorem meanReversion1M_cross_sectional {n : ℕ} (cols : Fin n → List ℚ)
    (i : Fin n) (hn : n ≠ 0) :
    ∃ mu sd,
      nanmean ((List.ofFn fun j => annualizedMonthly (cols j)).map some) =
          some mu ∧
        nanstd ((List.ofFn fun j => annualizedMonthly (cols j)).map some) =
          some sd ∧
        meanReversion1M cols i = (ret1MCol (cols i) - mu) / sd := by
  have hnn : nonNaN ((List.ofFn fun j => annualizedMonthly (cols j)).map some) =
      List.ofFn fun j => annualizedMonthly (cols j) := by
    rw [nonNaN, filterMap_id_map_some]
  have hlen : (List.ofFn fun j => annualizedMonthly (cols j)).length = n :=
    List.length_ofFn _
  have hsum : (List.ofFn fun j => annualizedMonthly (cols j)).sum =
      ∑ j, annualizedMonthly (cols j) := List.sum_ofFn
  have hm : nanmean ((List.ofFn fun j => annualizedMonthly (cols j)).map some) =
      some (crossMean fun j => annualizedMonthly (cols j)) := by
    rw [nanmean, hnn, hlen, hsum, if_neg hn, crossMean]
  have hv : nanvar ((List.ofFn fun j => annualizedMonthly (cols j)).map some) =
      some (crossVar fun j => annualizedMonthly (cols j)) := by
    rw [nanvar, hnn, hlen, hsum, if_neg hn]
    congr 1
    rw [List.map_ofFn, List.sum_ofFn]
    rfl
  refine ⟨crossMean fun j => annualizedMonthly (cols j),
    crossStd fun j => annualizedMonthly (cols j), hm, ?_, rfl⟩
  rw [nanstd, hv]
  rfl

/-- C4 (amended) witness: the characterization instantiated on a
concrete two-instrument panel. -/
theorem meanReversion1M_cross_sectional_witness :
    ∃ mu sd,
      nanmean ((List.ofFn fun j =>
          annualizedMonthly ((![[1], [2]] : Fin 2 → List ℚ) j)).map some) =
          some mu ∧
        nanstd ((List.ofFn fun j =>
          annualizedMonthly ((![[1], [2]] : Fin 2 → List ℚ) j)).map some) =
          some sd ∧
        meanReversion1M ![[1], [2]] 0 =
          (ret1MCol ((![[1], [2]] : Fin 2 → List ℚ) 0) - mu) / sd :=
  meanReversion1M_cross_sectional ![[1], [2]] 0 (by decide)

/-- C4 counterexample: a concrete 252-day two-instrument panel with no
NaNs.  Instrument 0's own monthly returns alternate +1/2, -1/2 (mean 0,
std 1/2) and its 1-month return is -1/2, so the claim's per-instrument
z-score is -1; the code returns -25/3 for instrument 0 because its
mean/std run across the two instruments' annualized returns
[-1/24, 1/12]. -/
theorem meanReversion1M_zscore_cex :
    meanReversion1M ![mrColA, mrColB] 0 = -(25 / 3) ∧
      meanReversionSpec mrColA = -1 ∧ (-(25 / 3) : ℚ) ≠ -1 := by
  refine ⟨?_, ?_, by norm_num⟩
  · have hq : (fun j => annualizedMonthly ((![mrColA, mrColB] : Fin 2 → List ℚ) j)) =
        (![-(1 / 24), 1 / 12] : Fin 2 → ℚ) := by
      funext j
      fin_cases j <;>
        simp [mrColA_annual, mrColB_annual]
    have hmean : crossMean (![-(1 / 24), 1 / 12] : Fin 2 → ℚ) = 1 / 48 := by
      rw [crossMean, Fin.sum_univ_two]
      norm_num
    have hvar : crossVar (![-(1 / 24), 1 / 12] : Fin 2 → ℚ) = (1 / 16) * (1 / 16) := by
      rw [crossVar, Fin.sum_univ_two, hmean]
      norm_num
    have hstd : crossStd (![-(1 / 24), 1 / 12] : Fin 2 → ℚ) = 1 / 16 := by
      rw [crossStd, hvar, sqrtQ_sq _ (by norm_num)]
    show (ret1MCol ((![mrColA, mrColB] : Fin 2 → List ℚ) 0) -
        crossMean fun j => annualizedMonthly ((![mrColA, mrColB] : Fin 2 → List ℚ) j)) /
        (crossStd fun j => annualizedMonthly ((![mrColA, mrColB] : Fin 2 → List ℚ) j)) =
      -(25 / 3)
    rw [hq, hmean, hstd, show (![mrColA, mrColB] : Fin 2 → List ℚ) 0 = mrColA from rfl,
      mrColA_ret1M]
    norm_num
  · have hsum : ([1 / 2, -(1 / 2), 1 / 2, -(1 / 2), 1 / 2, -(1 / 2), 1 / 2, -(1 / 2),
        1 / 2, -(1 / 2), 1 / 2, -(1 / 2)] : List ℚ).sum = 0 := by
      norm_num
    have hvar : (([1 / 2, -(1 / 2), 1 / 2, -(1 / 2), 1 / 2, -(1 / 2), 1 / 2, -(1 / 2),
        1 / 2, -(1 / 2), 1 / 2, -(1 / 2)] : List ℚ).map fun r =>
          (r - ([1 / 2, -(1 / 2), 1 / 2, -(1 / 2), 1 / 2, -(1 / 2), 1 / 2, -(1 / 2),
            1 / 2, -(1 / 2), 1 / 2, -(1 / 2)] : List ℚ).sum / 12) ^ 2).sum / 12 =
        (1 / 2) * (1 / 2) := by
      rw [hsum]
      norm_num
    rw [meanReversionSpec, mrColA_monthly, mrColA_ret1M, hvar,
      sqrtQ_sq _ (by norm_num), hsum]
    norm_num

/-! ## Column-order independence (permutation equivariance)

A cross-section of `n` instruments is a function `Fin n → column`;
reordering the instruments is composition with a permutation `σ`.
Every factor of the catalog either maps a per-column function over the
columns or aggregates with instrument-order-invariant statistics; the
representatives proved here are generic per-column factors,
Moneyflow_Volume_5d, Pioneer's rank-based Value factor, the
benchmark-reading Index_Beta and the cross-sectional
Mean_Reversion_1M. -/

/-- A factor that applies a per-column function to each instrument's
column (the `for col in close.T` pattern). -/
def colwise {n : ℕ} (g : List ℚ → ℚ) (cols : Fin n → List ℚ) : Fin n → ℚ :=
  fun i => g (cols i)

/-- `Moneyflow_Volume_5d.compute` over a cross-section of close and
volume columns. -/
def moneyflowBatch {n : ℕ} (cc vc : Fin n → List ℚ) : Fin n → ℚ :=
  fun i => mfvCol (cc i) (vc i)

/-- Is `o` a non-NaN value strictly below `v`? (a NaN comparison is
false, as in pandas). -/
def ltSomeB (o : Option ℚ) (v : ℚ) : Bool :=
  match o with
  | some w => decide (w < v)
  | none => false

/-- Is `o` the non-NaN value `v`? -/
def eqSomeB (o : Option ℚ) (v : ℚ) : Bool :=
  match o with
  | some w => decide (w = v)
  | none => false

/-- pandas `rank()` with the default average method, ascending: a NaN
entry ranks NaN; a value `v` ranks (number of smaller entries) +
((number of entries equal to `v`) + 1) / 2, NaN entries excluded. -/
def avgRank {n : ℕ} (x : Fin n → Option ℚ) (i : Fin n) : Option ℚ :=
  match x i with
  | none => none
  | some v =>
    some (((Finset.univ.filter fun j => ltSomeB (x j) v = true).card : ℚ) +
      (((Finset.univ.filter fun j => eqSomeB (x j) v = true).card : ℚ) + 1) / 2)

/-- Pioneer_0101 `Value.compute`: rank the three fundamental columns
cross-sectionally (`value_table.rank()`) and average the three ranks
per instrument (`.mean(axis=1)`, which skips NaN). -/
def valueFactor {n : ℕ} (bv s f : Fin n → Option ℚ) : Fin n → Option ℚ :=
  fun i => nanmean [avgRank bv i, avgRank s i, avgRank f i]

theorem card_filter_perm {n : ℕ} (σ : Equiv.Perm (Fin n)) (p : Fin n → Bool) :
    (Finset.univ.filter fun j => p (σ j) = true).card =
      (Finset.univ.filter fun j => p j = true).card := by
  apply Finset.card_bij (fun j _ => σ j)
  · intro a ha
    simp only [Finset.mem_filter, Finset.mem_univ, true_and] at ha ⊢
    exact ha
  · intro a _ b _ hab
    exact σ.injective hab
  · intro b hb
    simp only [Finset.mem_filter, Finset.mem_univ, true_and] at hb
    exact ⟨σ.symm b, by simp [hb], by simp⟩

theorem avgRank_perm {n : ℕ} (σ : Equiv.Perm (Fin n)) (x : Fin n → Option ℚ)
    (i : Fin n) : avgRank (fun j => x (σ j)) i = avgRank x (σ i) := by
  rw [avgRank, avgRank]
  cases x (σ i) with
  | none => rfl
  | some v =>
    show some (((Finset.univ.filter fun j => ltSomeB (x (σ j)) v = true).card : ℚ) +
        (((Finset.univ.filter fun j => eqSomeB (x (σ j)) v = true).card : ℚ) + 1) / 2) =
      some (((Finset.univ.filter fun j => ltSomeB (x j) v = true).card : ℚ) +
        (((Finset.univ.filter fun j => eqSomeB (x j) v = true).card : ℚ) + 1) / 2)
    rw [card_filter_perm σ fun j => ltSomeB (x j) v,
      card_filter_perm σ fun j => eqSomeB (x j) v]

theorem valueFactor_perm {n : ℕ} (σ : Equiv.Perm (Fin n))
    (bv s f : Fin n → Option ℚ) (i : Fin n) :
    valueFactor (fun j => bv (σ j)) (fun j => s (σ j)) (fun j => f (σ j)) i =
      valueFactor bv s f (σ i) := by
  rw [valueFactor, valueFactor, avgRank_perm σ bv, avgRank_perm σ s,
    avgRank_perm σ f]

theorem indexBeta_perm {n : ℕ} (σ : Equiv.Perm (Fin n)) (ids : Fin n → ℤ)
    (cols : Fin n → List ℚ)
    (hu : ∀ i j, ids i = 8554 → ids j = 8554 → i = j) :
    indexBeta (fun i => ids (σ i)) (fun i => cols (σ i)) =
      (indexBeta ids cols).map fun g => fun i => g (σ i) := by
  cases h1 : (List.finRange n).find? fun i => decide (ids (σ i) = 8554) with
  | none =>
    cases h2 : (List.finRange n).find? fun i => decide (ids i = 8554) with
    | none => rw [indexBeta, indexBeta, h1, h2]; rfl
    | some j2 =>
      exfalso
      have hp2 : ids j2 = 8554 := by
        have h := List.find?_some h2
        simpa using h
      have hnone := List.find?_eq_none.mp h1 (σ.symm j2) (List.mem_finRange _)
      simp only [Equiv.apply_symm_apply, hp2] at hnone
      exact hnone (by simp)
  | some j1 =>
    have hp1 : ids (σ j1) = 8554 := by
      have h := List.find?_some h1
      simpa using h
    cases h2 : (List.finRange n).find? fun i => decide (ids i = 8554) with
    | none =>
      exfalso
      have hnone := List.find?_eq_none.mp h2 (σ j1) (List.mem_finRange _)
      simp only [hp1] at hnone
      exact hnone (by simp)
    | some j2 =>
      have hp2 : ids j2 = 8554 := by
        have h := List.find?_some h2
        simpa using h
      have hj : σ j1 = j2 := hu _ _ hp1 hp2
      rw [indexBeta, indexBeta, h1, h2]
      rw [show ((some j1).map fun j => fun i => betaCol (cols (σ i)) (cols (σ j))) =
        some (fun i => betaCol (cols (σ i)) (cols (σ j1))) from rfl]
      rw [hj]
      rfl

theorem crossMean_perm {n : ℕ} (σ : Equiv.Perm (Fin n)) (q : Fin n → ℚ) :
    crossMean (fun j => q (σ j)) = crossMean q := by
  rw [crossMean, crossMean, Equiv.sum_comp σ q]

theorem crossVar_perm {n : ℕ} (σ : Equiv.Perm (Fin n)) (q : Fin n → ℚ) :
    crossVar (fun j => q (σ j)) = crossVar q := by
  rw [crossVar, crossVar, crossMean_perm σ q,
    Equiv.sum_comp σ fun j => (q j - crossMean q) ^ 2]

theorem crossStd_perm {n : ℕ} (σ : Equiv.Perm (Fin n)) (q : Fin n → ℚ) :
    crossStd (fun j => q (σ j)) = crossStd q := by
  rw [crossStd, crossStd, crossVar_perm σ q]

theorem meanReversion1M_perm {n : ℕ} (σ : Equiv.Perm (Fin n))
    (cols : Fin n → List ℚ) (i : Fin n) :
    meanReversion1M (fun j => cols (σ j)) i = meanReversion1M cols (σ i) := by
  show (ret1MCol (cols (σ i)) -
      crossMean fun j => annualizedMonthly (cols (σ j))) /
      (crossStd fun j => annualizedMonthly (cols (σ j))) =
    meanReversion1M cols (σ i)
  rw [crossMean_perm σ fun j => annualizedMonthly (cols j),
    crossStd_perm σ fun j => annualizedMonthly (cols j)]
  rfl

/-- C6: permuting the instrument columns of the input (together with
the instrument id vector, where one is read) permutes every factor's
output vector by the same permutation: generic per-column factors,
Moneyflow_Volume_5d, Pioneer's rank-based Value factor, the
benchmark-reading Index_Beta (whose benchmark id occurs at most once)
and the cross-sectional Mean_Reversion_1M are all equivariant. -/
theorem factor_column_equivariance :
    (∀ (n : ℕ) (g : List ℚ → ℚ) (cols : Fin n → List ℚ)
        (σ : Equiv.Perm (Fin n)) (i : Fin n),
        colwise g (fun j => cols (σ j)) i = colwise g cols (σ i)) ∧
    (∀ (n : ℕ) (cc vc : Fin n → List ℚ) (σ : Equiv.Perm (Fin n)) (i : Fin n),
        moneyflowBatch (fun j => cc (σ j)) (fun j => vc (σ j)) i =
          moneyflowBatch cc vc (σ i)) ∧
    (∀ (n : ℕ) (bv s f : Fin n → Option ℚ) (σ : Equiv.Perm (Fin n)) (i : Fin n),
        valueFactor (fun j => bv (σ j)) (fun j => s (σ j)) (fun j => f (σ j)) i =
          valueFactor bv s f (σ i)) ∧
    (∀ (n : ℕ) (ids : Fin n → ℤ) (cols : Fin n → List ℚ)
        (σ : Equiv.Perm (Fin n)),
        (∀ i j, ids i = 8554 → ids j = 8554 → i = j) →
          indexBeta (fun i => ids (σ i)) (fun i => cols (σ i)) =
            (indexBeta ids cols).map fun g => fun i => g (σ i)) ∧
    (∀ (n : ℕ) (cols : Fin n → List ℚ) (σ : Equiv.Perm (Fin n)) (i : Fin n),
        meanReversion1M (fun j => cols (σ j)) i = meanReversion1M cols (σ i)) :=
  ⟨fun _ _ _ _ _ => rfl, fun _ _ _ _ _ => rfl,
    fun n bv s f σ i => valueFactor_perm σ bv s f i,
    fun n ids cols σ hu => indexBeta_perm σ ids cols hu,
    fun n cols σ i => meanReversion1M_perm σ cols i⟩

/-- C6 witness: concrete two-instrument instances of each conjunct
under the swap permutation, with the benchmark id 8554 occurring
exactly once. -/
theorem factor_column_equivariance_witness :
    (colwise (fun c => c.sum)
        (fun j => (![[1], [2]] : Fin 2 → List ℚ) (Equiv.swap 0 1 j)) 0 =
      colwise (fun c => c.sum) ![[1], [2]] (Equiv.swap 0 1 0)) ∧
    (valueFactor (fun j => (![some 1, some 2] : Fin 2 → Option ℚ) (Equiv.swap 0 1 j))
        (fun j => (![some 3, none] : Fin 2 → Option ℚ) (Equiv.swap 0 1 j))
        (fun j => (![none, some 4] : Fin 2 → Option ℚ) (Equiv.swap 0 1 j)) 0 =
      valueFactor ![some 1, some 2] ![some 3, none] ![none, some 4]
        (Equiv.swap 0 1 0)) ∧
    (indexBeta (fun i => (![1, 8554] : Fin 2 → ℤ) (Equiv.swap 0 1 i))
        (fun i => (![[1, 2], [3, 4]] : Fin 2 → List ℚ) (Equiv.swap 0 1 i)) =
      (indexBeta ![1, 8554] ![[1, 2], [3, 4]]).map
        fun g => fun i => g (Equiv.swap 0 1 i)) :=
  ⟨factor_column_equivariance.1 2 (fun c => c.sum) ![[1], [2]] (Equiv.swap 0 1) 0,
    factor_column_equivariance.2.2.1 2 ![some 1, some 2] ![some 3, none]
      ![none, some 4] (Equiv.swap 0 1) 0,
    factor_column_equivariance.2.2.2.1 2 ![1, 8554] ![[1, 2], [3, 4]]
      (Equiv.swap 0 1) (by decide)⟩
